import Mathlib

/-!
Verification development for the "circles" Telegram bot repository.

The repository contains four near-duplicate Go variants of one flow:
receive a video/document attachment, download it to a temp file, shell out
to ffmpeg to produce a square "video note", upload it, and clean up.

  * `Simple`     — main.go: long-polling, tgbotapi, fixed temp names,
                   `exec.Command` (no context), no user-facing error texts.
  * `WebhookA`   — first unnamed file: go-telegram/bot webhook variant whose
                   `fileReader` is total (returns an empty byte reader on
                   open failure).
  * `PollingCtx` — second unnamed file: tgbotapi long-polling variant with a
                   cancellation context and per-chat temp names, generic
                   send-failure text only.
  * `WebhookB`   — third unnamed file: go-telegram/bot webhook variant whose
                   `fileReader` is fallible and aborts on open failure, with
                   the VOICE_MESSAGES_FORBIDDEN special case.

Effectful steps (Telegram API calls, HTTP download, the ffmpeg process) are
embedded by an outcome oracle `Env`; each handler is a pure function from a
message and an `Env` to the list of observable events it performs, in
execution order (deferred removals appear where Go's `defer` runs them).
-/

/-! ### Go path handling (`path/filepath` on Unix)

`filepath.Join(a, b)` is `Clean(a + "/" + b)`; `Clean` resolves `.` and
`..` components lexically.  `filepath.Ext` returns the suffix starting at
the final dot of the final path element.  These are modelled on `List Char`
so that everything reduces by kernel computation. -/

/-- Split a character list on `'/'`, keeping empty components. -/
def splitSlashAux : List Char → List Char → List (List Char)
  | [], acc => [acc.reverse]
  | c :: rest, acc =>
    if c = '/' then acc.reverse :: splitSlashAux rest []
    else splitSlashAux rest (c :: acc)

/-- All slash-separated components of a character list. -/
def splitSlash (l : List Char) : List (List Char) :=
  splitSlashAux l []

/-- One component step of Go's `filepath.Clean`: drop empty and `.`
components; `..` pops the previous component, or is dropped at the root of
a rooted path (kept for relative paths).  `stack` holds the output
components in reverse. -/
def cleanPush (rooted : Bool) (stack : List (List Char)) (e : List Char) : List (List Char) :=
  if e = ([] : List Char) then stack
  else if e = ['.'] then stack
  else if e = ['.', '.'] then
    match stack with
    | top :: rest => if top = ['.', '.'] then e :: top :: rest else rest
    | [] => if rooted then [] else [e]
  else e :: stack

/-- The component processing of Go's `filepath.Clean`. -/
def cleanStack (rooted : Bool) (elems : List (List Char)) : List (List Char) :=
  (elems.foldl (cleanPush rooted) []).reverse

/-- Join components with `'/'`. -/
def joinComps : List (List Char) → List Char
  | [] => []
  | [e] => e
  | e :: rest => e ++ '/' :: joinComps rest

/-- Go's `filepath.Clean` (Unix separator). -/
def goClean (s : String) : String :=
  let cs := s.data
  let rooted : Bool :=
    match cs with
    | c :: _ => c = '/'
    | [] => false
  let body := joinComps (cleanStack rooted (splitSlash cs))
  let res : List Char := if rooted then '/' :: body else body
  if res = [] then "." else String.mk res

/-- Go's `filepath.Join` restricted to two elements, as used by the source:
empty elements are skipped, the rest is cleaned. -/
def goJoin (a b : String) : String :=
  if a = "" then (if b = "" then "" else goClean b)
  else if b = "" then goClean a
  else goClean (a ++ "/" ++ b)

/-- Scan helper for `goExt`: the characters are visited from the end of the
path; `acc` holds the already visited suffix. -/
def goExtRev : List Char → List Char → Option (List Char)
  | [], _ => none
  | c :: rest, acc =>
    if c = '/' then none
    else if c = '.' then some (c :: acc)
    else goExtRev rest (c :: acc)

/-- Go's `filepath.Ext`: suffix from the final dot of the final element,
`""` when that element has no dot. -/
def goExt (s : String) : String :=
  match goExtRev s.data.reverse [] with
  | none => ""
  | some l => String.mk l

/-! ### Go `fmt.Sprintf("%d", chatID)` — decimal rendering of an `int64`,
embedded with explicit fuel so that it reduces by kernel computation. -/

/-- The character of a decimal digit. -/
def decDigitChar (d : Nat) : Char := Char.ofNat (48 + d)

/-- Least-significant-first decimal digits of `n`; `fuel > n` suffices. -/
def natDigitsRevFuel : Nat → Nat → List Char
  | 0, _ => []
  | fuel + 1, n =>
    if n < 10 then [decDigitChar n]
    else decDigitChar (n % 10) :: natDigitsRevFuel fuel (n / 10)

/-- Decimal rendering of a natural number. -/
def natDecRepr (n : Nat) : String :=
  String.mk (natDigitsRevFuel (n + 1) n).reverse

/-- Value of a least-significant-first digit character list (specification
side, used to prove that decimal rendering is injective). -/
def digitsValRev : List Char → Nat
  | [] => 0
  | c :: r => (c.toNat - 48) + 10 * digitsValRev r

/-- Go's `%d` formatting of a (signed) chat identifier. -/
def goFormatInt (i : Int) : String :=
  if i < 0 then "-" ++ natDecRepr i.natAbs else natDecRepr i.natAbs

/-! ### Temp file naming (webhook / context variants) -/

/-- `os.TempDir()` — Unix default `/tmp` (no `TMPDIR` override in the
container image). -/
def tempDir : String := "/tmp"

/-- `voiceMsgRestrictionErr` from the go-telegram/bot variants. -/
def voiceMsgRestrictionErr : String := "Bad Request: VOICE_MESSAGES_FORBIDDEN"

/-- The file-name normalization performed by `handleVideo`: empty names
become `video.mp4`, names without an extension get `.mp4` appended. -/
def normalizeFileName (n : String) : String :=
  if n = "" then "video.mp4"
  else if goExt n = "" then n ++ ".mp4"
  else n

/-- `filepath.Join(os.TempDir(), fmt.Sprintf("input_%d_%s", chatID, fileName))`. -/
def inputPathOf (chatID : Int) (fileName : String) : String :=
  goJoin tempDir ("input_" ++ goFormatInt chatID ++ "_" ++ fileName)

/-- `filepath.Join(os.TempDir(), "output_"+fileName)`. -/
def outputPathOf (fileName : String) : String :=
  goJoin tempDir ("output_" ++ fileName)

/-- The input/output temp path pair computed by one request from the
(normalized) file name. -/
def tempPathsOf (chatID : Int) (fileName : String) : String × String :=
  (inputPathOf chatID fileName, outputPathOf fileName)

/-- Whether path `p` lies under directory `d` (is `d` itself or below it). -/
def underDir (d p : String) : Bool :=
  p = d || (d ++ "/").data.isPrefixOf p.data

/-! ### Effect model

`Env` fixes the outcome of every effectful step of one request; a handler
maps a message and an `Env` to its observable event trace. -/

/-- Outcome of the ffmpeg child process.  `exited exitOk wroteOutput`: the
process started and was waited for; `wroteOutput` records whether it
created the output file (a failing run may still have written a partial
output, since `-y` truncates/creates it eagerly). -/
inductive TcOutcome where
  | pipeError
  | startError
  | exited (exitOk : Bool) (wroteOutput : Bool)
  deriving DecidableEq, Repr

/-- Outcome oracle for one request. -/
structure Env where
  /-- `bot.GetFile` succeeds. -/
  getFileOk : Bool
  /-- `http.Get` returns without a transport error. -/
  httpOk : Bool
  /-- Status code of the HTTP response (never inspected by the source). -/
  httpStatus : Nat
  /-- `os.Create(destPath)` succeeds. -/
  createOk : Bool
  /-- `io.Copy` copies the whole body. -/
  copyOk : Bool
  /-- The process-wide cancellation context has been cancelled. -/
  cancelFired : Bool
  /-- ffmpeg child-process outcome. -/
  tc : TcOutcome
  /-- `os.Open(outputPath)` (the upload-side `fileReader`) succeeds. -/
  openOk : Bool
  /-- `SendVideoNote` / `bot.Send`: `none` on success, `some e` when it
  fails with error string `e`. -/
  sendNote : Option String
  deriving DecidableEq, Repr

/-- An attachment reference carried by a message. -/
structure Attachment where
  fileID : String
  fileName : String
  deriving DecidableEq, Repr

/-- The parts of a Telegram message the flow reads. -/
structure Message where
  chatID : Int
  video : Option Attachment
  document : Option Attachment
  deriving DecidableEq, Repr

/-- Observable events of one request, in execution order. -/
inductive Event where
  /-- The download transport returned a response with this status code. -/
  | httpResponse (status : Nat)
  /-- A file was created at `path`. -/
  | fileCreate (path : String)
  /-- `os.Remove(path)` ran. -/
  | fileRemove (path : String)
  /-- The external transcoding process started (`withCtx`: it was launched
  through `exec.CommandContext` with the cancellation context). -/
  | ffmpegRun (withCtx : Bool) (exe : String) (args : List String)
  /-- A plain text message was sent to `chatID`. -/
  | msgSend (chatID : Int) (text : String)
  /-- A video note was submitted to `chatID` (`emptyData`: the payload was
  the empty reader because opening the output file had failed). -/
  | videoNoteSend (chatID : Int) (emptyData : Bool)
  deriving DecidableEq, Repr

/-- The text payloads of the `msgSend` events of a trace, in order. -/
def sentTexts : List Event → List String
  | [] => []
  | .msgSend _ t :: r => t :: sentTexts r
  | _ :: r => sentTexts r

/-- `downloadFile` (identical in all four variants): `http.Get`, then
`os.Create(destPath)`, then `io.Copy`.  The response status code is never
inspected — any response, success or not, has its body written to
`destPath`. -/
def downloadFile (env : Env) (destPath : String) : List Event × Bool :=
  if env.httpOk then
    if env.createOk then
      ([.httpResponse env.httpStatus, .fileCreate destPath], env.copyOk)
    else ([.httpResponse env.httpStatus], false)
  else ([], false)

/-- `defaultVideoSize` of the context variants. -/
def defaultVideoSize : Nat := 640

/-- The `-vf` filter string of the context variants:
`fmt.Sprintf("crop=min(iw\\,ih):min(iw\\,ih),scale=%d:%d,format=yuv420p", 640, 640)`. -/
def ffmpegVf : String :=
  "crop=min(iw\\,ih):min(iw\\,ih),scale=" ++ toString defaultVideoSize ++ ":"
    ++ toString defaultVideoSize ++ ",format=yuv420p"

/-- The argument list passed to ffmpeg by the context variants. -/
def ffmpegArgs (inputPath outputPath : String) : List String :=
  ["-i", inputPath, "-vf", ffmpegVf, "-c:a", "copy", "-y", outputPath]

/-- The `-vf` filter literal of main.go (written out, not via `Sprintf`). -/
def ffmpegVfSimple : String := "crop=min(iw\\,ih):min(iw\\,ih),scale=640:640,format=yuv420p"

/-- The argument list passed to ffmpeg by main.go. -/
def ffmpegArgsSimple (inputPath outputPath : String) : List String :=
  ["-i", inputPath, "-vf", ffmpegVfSimple, "-c:a", "copy", "-y", outputPath]

/-- `makeCircularVideo` of the context variants: `exec.CommandContext`,
`StderrPipe`, `Start`, `Wait`.  Cancellation of the context kills the child
process, surfacing as a `Wait` error. -/
def makeCircularVideoCtx (env : Env) (inputPath outputPath : String) : List Event × Bool :=
  match env.tc with
  | .pipeError => ([], false)
  | .startError => ([], false)
  | .exited exitOk wrote =>
    (.ffmpegRun true "ffmpeg" (ffmpegArgs inputPath outputPath)
        :: (if wrote then [.fileCreate outputPath] else []),
      exitOk && !env.cancelFired)

/-- `makeCircularVideo` of main.go: `exec.Command` (no context) and
`cmd.Run()`.  The cancellation signal is not consulted.  main.go has no
stderr pipe, so `pipeError` behaves like a start failure here. -/
def makeCircularVideoSimple (env : Env) (inputPath outputPath : String) : List Event × Bool :=
  match env.tc with
  | .pipeError => ([], false)
  | .startError => ([], false)
  | .exited exitOk wrote =>
    (.ffmpegRun false "ffmpeg" (ffmpegArgsSimple inputPath outputPath)
        :: (if wrote then [.fileCreate outputPath] else []),
      exitOk)

/-- The attachment selection at the top of `handleVideo`: video first,
then document. -/
def resolveAttachment (m : Message) : Option Attachment :=
  match m.video with
  | some v => some v
  | none => m.document

/-! ### The four request pipelines -/

namespace Simple

/-- `handleVideo` of main.go: fixed temp names `input.mp4` / `output.mp4`,
no user-facing replies, every early exit is a bare `return` after logging.
The polling loop only dispatches messages with `Video != nil`. -/
def handleVideo (m : Message) (env : Env) : List Event :=
  match m.video with
  | none => []
  | some _ =>
    if env.getFileOk then
      let inputPath := goJoin tempDir "input.mp4"
      let dl := downloadFile env inputPath
      dl.1 ++
        (if dl.2 then
          let outputPath := goJoin tempDir "output.mp4"
          let tcr := makeCircularVideoSimple env inputPath outputPath
          tcr.1 ++
            (if tcr.2 then
              [.videoNoteSend m.chatID false, .fileRemove outputPath, .fileRemove inputPath]
            else
              [.fileRemove inputPath])
        else [])
    else []

/-- The update loop of main.go: only `Video` messages are handled; every
other message is skipped with no reply. -/
def dispatch (u : Option Message) (env : Env) : List Event :=
  match u with
  | none => []
  | some m =>
    match m.video with
    | some _ => handleVideo m env
    | none => []

end Simple

/-- `defaultHandler` (go-telegram/bot variants) and the update loop of the
context polling variant: a video or document message is dispatched to the
given `handleVideo` on its own goroutine; anything else gets the fixed
instructional reply. -/
def dispatchDefault (handler : Message → Env → List Event)
    (u : Option Message) (env : Env) : List Event :=
  match u with
  | none => []
  | some m =>
    if m.video.isSome || m.document.isSome then handler m env
    else [.msgSend m.chatID "Please send a video file to make it circular."]

namespace WebhookB

/-- `handleVideo` of the webhook variant with a fallible `fileReader`:
resolve attachment, normalize the name, `GetFile`, download (deferring the
input removal only after a successful download), transcode (deferring the
output removal only after a successful transcode), open the output, send
the video note, distinguishing the VOICE_MESSAGES_FORBIDDEN error. -/
def handleVideo (m : Message) (env : Env) : List Event :=
  match resolveAttachment m with
  | none => [.msgSend m.chatID "Please send a valid video file."]
  | some att =>
    let fileName := normalizeFileName att.fileName
    if env.getFileOk then
      let inputPath := inputPathOf m.chatID fileName
      let dl := downloadFile env inputPath
      dl.1 ++
        (if dl.2 then
          .msgSend m.chatID "Video downloaded. Processing..." ::
            (let outputPath := outputPathOf fileName
             let tcr := makeCircularVideoCtx env inputPath outputPath
             tcr.1 ++
               (if tcr.2 then
                 .msgSend m.chatID "Video processed. Sending..." ::
                   (if env.openOk then
                     .videoNoteSend m.chatID false ::
                       ((match env.sendNote with
                         | none => []
                         | some e =>
                           if e = voiceMsgRestrictionErr then
                             [.msgSend m.chatID "It seems that I don't have permission to send video notes. Please check if you allow sending voice messages in the settings."]
                           else
                             [.msgSend m.chatID "Failed to send the processed video. Please try again."])
                         ++ [.fileRemove outputPath, .fileRemove inputPath])
                   else
                     [.msgSend m.chatID "Failed to open the processed video. Please try again.",
                      .fileRemove outputPath, .fileRemove inputPath])
               else
                 [.msgSend m.chatID "Failed to process the video. Please try again.",
                  .fileRemove inputPath]))
        else
          [.msgSend m.chatID "Failed to download the video. Please try again."])
    else
      [.msgSend m.chatID "Failed to process the video. Please try again."]

end WebhookB

namespace WebhookA

/-- `fileReader` of the first webhook variant: total — an open failure
yields `bytes.NewReader(nil)`, the empty reader.  `true` means the real
file data, `false` the empty reader. -/
def fileReaderGivesData (openOk : Bool) : Bool := openOk

/-- `handleVideo` of the webhook variant with the total `fileReader`: like
`WebhookB.handleVideo` but with no exit between transcode and upload — the
video note is submitted even when opening the output file failed, then with
empty data. -/
def handleVideo (m : Message) (env : Env) : List Event :=
  match resolveAttachment m with
  | none => [.msgSend m.chatID "Please send a valid video file."]
  | some att =>
    let fileName := normalizeFileName att.fileName
    if env.getFileOk then
      let inputPath := inputPathOf m.chatID fileName
      let dl := downloadFile env inputPath
      dl.1 ++
        (if dl.2 then
          .msgSend m.chatID "Video downloaded. Processing..." ::
            (let outputPath := outputPathOf fileName
             let tcr := makeCircularVideoCtx env inputPath outputPath
             tcr.1 ++
               (if tcr.2 then
                 .msgSend m.chatID "Video processed. Sending..." ::
                   .videoNoteSend m.chatID (!(fileReaderGivesData env.openOk)) ::
                     ((match env.sendNote with
                       | none => []
                       | some e =>
                         if e = voiceMsgRestrictionErr then
                           [.msgSend m.chatID "It seems that I don't have permission to send video notes. Please check if you allow sending voice messages in the settings."]
                         else
                           [.msgSend m.chatID "Failed to send the processed video. Please try again."])
                       ++ [.fileRemove outputPath, .fileRemove inputPath])
               else
                 [.msgSend m.chatID "Failed to process the video. Please try again.",
                  .fileRemove inputPath]))
        else
          [.msgSend m.chatID "Failed to download the video. Please try again."])
    else
      [.msgSend m.chatID "Failed to process the video. Please try again."]

end WebhookA

namespace PollingCtx

/-- `handleVideo` of the context polling variant (tgbotapi): per-chat temp
names and a cancellation context, but the video note is sent by file path
(no `fileReader`) and every send failure gets the generic text — there is
no VOICE_MESSAGES_FORBIDDEN special case in this variant. -/
def handleVideo (m : Message) (env : Env) : List Event :=
  match resolveAttachment m with
  | none => [.msgSend m.chatID "Please send a valid video file."]
  | some att =>
    let fileName := normalizeFileName att.fileName
    if env.getFileOk then
      let inputPath := inputPathOf m.chatID fileName
      let dl := downloadFile env inputPath
      dl.1 ++
        (if dl.2 then
          .msgSend m.chatID "Video downloaded. Processing..." ::
            (let outputPath := outputPathOf fileName
             let tcr := makeCircularVideoCtx env inputPath outputPath
             tcr.1 ++
               (if tcr.2 then
                 .msgSend m.chatID "Video processed. Sending..." ::
                   .videoNoteSend m.chatID false ::
                     ((match env.sendNote with
                       | none => []
                       | some _ =>
                         [.msgSend m.chatID "Failed to send the processed video. Please try again."])
                       ++ [.fileRemove outputPath, .fileRemove inputPath])
               else
                 [.msgSend m.chatID "Failed to process the video. Please try again.",
                  .fileRemove inputPath]))
        else
          [.msgSend m.chatID "Failed to download the video. Please try again."])
    else
      [.msgSend m.chatID "Failed to process the video. Please try again."]

end PollingCtx

/-! ### Supporting lemmas -/

theorem splitSlashAux_no_slash (xs : List Char) (h : ∀ c ∈ xs, c ≠ '/') :
    ∀ acc, splitSlashAux xs acc = [acc.reverse ++ xs] := by
  induction xs with
  | nil => intro acc; simp [splitSlashAux]
  | cons c rest ih =>
    intro acc
    have hc : c ≠ '/' := h c (List.mem_cons_self c rest)
    simp only [splitSlashAux, if_neg hc]
    rw [ih (fun d hd => h d (List.mem_cons_of_mem _ hd)) (c :: acc)]
    simp

theorem splitSlash_tmp (xs : List Char) :
    splitSlash ('/' :: 't' :: 'm' :: 'p' :: '/' :: xs) = [] :: ['t', 'm', 'p'] :: splitSlashAux xs [] := by
  simp [splitSlash, splitSlashAux]

theorem cleanStack_tmp_normal (l : List Char) (h0 : l ≠ []) (h1 : l ≠ ['.']) (h2 : l ≠ ['.', '.']) :
    cleanStack true ([] :: ['t', 'm', 'p'] :: [l]) = [['t', 'm', 'p'], l] := by
  simp [cleanStack, cleanPush, h0, h1, h2]

theorem goClean_tmp_normal (l : List Char) (hs : ∀ c ∈ l, c ≠ '/')
    (h0 : l ≠ []) (h1 : l ≠ ['.']) (h2 : l ≠ ['.', '.']) :
    goClean ("/tmp/" ++ String.mk l) = "/tmp/" ++ String.mk l := by
  have hdata : ("/tmp/" ++ String.mk l).data = '/' :: 't' :: 'm' :: 'p' :: '/' :: l := rfl
  simp only [goClean, hdata, decide_True, if_true]
  rw [splitSlash_tmp, splitSlashAux_no_slash l hs []]
  simp only [List.reverse_nil, List.nil_append]
  rw [cleanStack_tmp_normal l h0 h1 h2]
  simp only [joinComps]
  rfl

theorem goJoin_tmp_normal (l : List Char) (hs : ∀ c ∈ l, c ≠ '/')
    (h0 : l ≠ []) (h1 : l ≠ ['.']) (h2 : l ≠ ['.', '.']) :
    goJoin tempDir (String.mk l) = "/tmp/" ++ String.mk l := by
  have hne : String.mk l ≠ "" := by
    intro h
    have := congrArg String.data h
    exact h0 this
  have hassoc : tempDir ++ "/" ++ String.mk l = "/tmp/" ++ String.mk l := rfl
  rw [goJoin, if_neg (by decide), if_neg hne, hassoc, goClean_tmp_normal l hs h0 h1 h2]

theorem decDigitChar_toNat (d : Nat) (h : d < 10) : (decDigitChar d).toNat = 48 + d := by
  interval_cases d <;> rfl

theorem natDigitsRevFuel_range : ∀ fuel n, ∀ c ∈ natDigitsRevFuel fuel n,
    48 ≤ c.toNat ∧ c.toNat ≤ 57 := by
  intro fuel
  induction fuel with
  | zero => intro n c hc; simp [natDigitsRevFuel] at hc
  | succ f ih =>
    intro n c hc
    by_cases h : n < 10
    · simp [natDigitsRevFuel, h] at hc
      subst hc
      rw [decDigitChar_toNat n h]
      omega
    · simp [natDigitsRevFuel, h] at hc
      rcases hc with hc | hc
      · subst hc
        rw [decDigitChar_toNat _ (Nat.mod_lt n (by omega))]
        omega
      · exact ih _ c hc

theorem digitsValRev_natDigitsRevFuel : ∀ fuel n, n < fuel →
    digitsValRev (natDigitsRevFuel fuel n) = n := by
  intro fuel
  induction fuel with
  | zero => omega
  | succ f ih =>
    intro n hn
    by_cases h : n < 10
    · simp [natDigitsRevFuel, h, digitsValRev, decDigitChar_toNat n h]
    · have hdiv : n / 10 < f := by omega
      simp [natDigitsRevFuel, h, digitsValRev, ih _ hdiv,
        decDigitChar_toNat _ (Nat.mod_lt n (by omega))]
      omega

theorem natDecRepr_inj {a b : Nat} (h : natDecRepr a = natDecRepr b) : a = b := by
  have hd := congrArg String.data h
  simp only [natDecRepr] at hd
  rw [List.reverse_inj] at hd
  have ha := digitsValRev_natDigitsRevFuel (a + 1) a (by omega)
  have hb := digitsValRev_natDigitsRevFuel (b + 1) b (by omega)
  rw [← ha, ← hb, hd]

theorem natDecRepr_chars (n : Nat) : ∀ c ∈ (natDecRepr n).data,
    48 ≤ c.toNat ∧ c.toNat ≤ 57 := by
  intro c hc
  simp only [natDecRepr, List.mem_reverse] at hc
  exact natDigitsRevFuel_range _ n c hc

theorem dashAppend_data (s : String) : ("-" ++ s).data = '-' :: s.data := by
  cases s
  rfl

theorem goFormatInt_chars (i : Int) : ∀ c ∈ (goFormatInt i).data,
    c.toNat = 45 ∨ (48 ≤ c.toNat ∧ c.toNat ≤ 57) := by
  intro c hc
  by_cases hi : i < 0
  · simp only [goFormatInt, if_pos hi, dashAppend_data] at hc
    rcases List.mem_cons.mp hc with hc | hc
    · subst hc; left; rfl
    · right; exact natDecRepr_chars _ c hc
  · simp only [goFormatInt, if_neg hi] at hc
    right; exact natDecRepr_chars _ c hc

theorem goFormatInt_inj {i j : Int} (h : goFormatInt i = goFormatInt j) : i = j := by
  by_cases hi : i < 0 <;> by_cases hj : j < 0 <;>
    simp only [goFormatInt, if_pos, if_neg, hi, hj] at h
  · have hd := congrArg String.data h
    rw [dashAppend_data, dashAppend_data] at hd
    have hdd : (natDecRepr i.natAbs).data = (natDecRepr j.natAbs).data := by
      simpa using hd
    have : i.natAbs = j.natAbs := by
      apply natDecRepr_inj
      cases hmk : natDecRepr i.natAbs
      cases hmk' : natDecRepr j.natAbs
      simp_all
    omega
  · exfalso
    rw [if_neg (by exact not_false)] at h
    have hd := congrArg String.data h
    rw [dashAppend_data] at hd
    have hm : '-' ∈ (natDecRepr j.natAbs).data := by
      rw [← hd]; exact List.mem_cons_self _ _
    have hb := natDecRepr_chars _ _ hm
    rw [show Char.toNat '-' = 45 from by decide] at hb
    omega
  · exfalso
    rw [if_neg (by exact not_false)] at h
    have hd := congrArg String.data h
    rw [dashAppend_data] at hd
    have hm : '-' ∈ (natDecRepr i.natAbs).data := by
      rw [hd]; exact List.mem_cons_self _ _
    have hb := natDecRepr_chars _ _ hm
    rw [show Char.toNat '-' = 45 from by decide] at hb
    omega
  · have : i.natAbs = j.natAbs := natDecRepr_inj h
    omega

theorem strExt {a b : String} (h : a.data = b.data) : a = b := by
  cases a
  cases b
  exact congrArg String.mk h

theorem tmpAppend_data (x : String) :
    ("/tmp/" ++ x).data = '/' :: 't' :: 'm' :: 'p' :: '/' :: x.data := by
  cases x
  rfl

theorem inputComp_data (s f : String) :
    ("input_" ++ s ++ "_" ++ f).data
      = 'i' :: 'n' :: 'p' :: 'u' :: 't' :: '_' :: (s.data ++ '_' :: f.data) := by
  cases s
  cases f
  simp

theorem append_underscore_eq : ∀ (s1 : List Char), ∀ (s2 t1 t2 : List Char),
    (∀ c ∈ s1, c ≠ '_') → (∀ c ∈ s2, c ≠ '_') →
    s1 ++ '_' :: t1 = s2 ++ '_' :: t2 → s1 = s2 ∧ t1 = t2 := by
  intro s1
  induction s1 with
  | nil =>
    intro s2 t1 t2 _ h2 heq
    cases s2 with
    | nil => simpa using heq
    | cons d ds =>
      exfalso
      simp only [List.nil_append, List.cons_append, List.cons.injEq] at heq
      exact h2 d (List.mem_cons_self d ds) heq.1.symm
  | cons c cs ih =>
    intro s2 t1 t2 h1 h2 heq
    cases s2 with
    | nil =>
      exfalso
      simp only [List.nil_append, List.cons_append, List.cons.injEq] at heq
      exact h1 c (List.mem_cons_self c cs) heq.1
    | cons d ds =>
      simp only [List.cons_append, List.cons.injEq] at heq
      obtain ⟨rfl, heq⟩ := heq
      obtain ⟨h, h'⟩ := ih ds t1 t2 (fun e he => h1 e (List.mem_cons_of_mem _ he))
        (fun e he => h2 e (List.mem_cons_of_mem _ he)) heq
      exact ⟨by rw [h], h'⟩

theorem goFormatInt_no_underscore (i : Int) : ∀ c ∈ (goFormatInt i).data, c ≠ '_' := by
  intro c hc he
  have := goFormatInt_chars i c hc
  rw [he, show Char.toNat '_' = 95 from by decide] at this
  omega

theorem goFormatInt_no_slash (i : Int) : ∀ c ∈ (goFormatInt i).data, c ≠ '/' := by
  intro c hc he
  have := goFormatInt_chars i c hc
  rw [he, show Char.toNat '/' = 47 from by decide] at this
  omega

theorem goJoin_tmp_normalStr (x : String) (hs : ∀ c ∈ x.data, c ≠ '/')
    (h0 : x.data ≠ []) (h1 : x.data ≠ ['.']) (h2 : x.data ≠ ['.', '.']) :
    goJoin tempDir x = "/tmp/" ++ x := by
  obtain ⟨l⟩ := x
  exact goJoin_tmp_normal l hs h0 h1 h2

theorem inputComp_no_slash (c : Int) (f : String) (hf : ∀ ch ∈ f.data, ch ≠ '/') :
    ∀ ch ∈ ("input_" ++ goFormatInt c ++ "_" ++ f).data, ch ≠ '/' := by
  intro ch hch
  rw [inputComp_data] at hch
  simp only [List.mem_cons, List.mem_append] at hch
  rcases hch with h | h | h | h | h | h | h | h | h
  · subst h; decide
  · subst h; decide
  · subst h; decide
  · subst h; decide
  · subst h; decide
  · subst h; decide
  · exact goFormatInt_no_slash c ch h
  · subst h; decide
  · exact hf ch h

theorem inputPathOf_inj (c1 c2 : Int) (f : String)
    (hc : c1 ≠ c2) (hf : ∀ ch ∈ f.data, ch ≠ '/') :
    inputPathOf c1 f ≠ inputPathOf c2 f := by
  intro heq
  apply hc
  have hd1 : ("input_" ++ goFormatInt c1 ++ "_" ++ f).data ≠ [] := by
    rw [inputComp_data]; simp
  have hd1' : ("input_" ++ goFormatInt c1 ++ "_" ++ f).data ≠ ['.'] := by
    rw [inputComp_data]; simp
  have hd1'' : ("input_" ++ goFormatInt c1 ++ "_" ++ f).data ≠ ['.', '.'] := by
    rw [inputComp_data]; simp
  have hd2 : ("input_" ++ goFormatInt c2 ++ "_" ++ f).data ≠ [] := by
    rw [inputComp_data]; simp
  have hd2' : ("input_" ++ goFormatInt c2 ++ "_" ++ f).data ≠ ['.'] := by
    rw [inputComp_data]; simp
  have hd2'' : ("input_" ++ goFormatInt c2 ++ "_" ++ f).data ≠ ['.', '.'] := by
    rw [inputComp_data]; simp
  rw [inputPathOf, inputPathOf,
    goJoin_tmp_normalStr _ (inputComp_no_slash c1 f hf) hd1 hd1' hd1'',
    goJoin_tmp_normalStr _ (inputComp_no_slash c2 f hf) hd2 hd2' hd2''] at heq
  have hdata := congrArg String.data heq
  rw [tmpAppend_data, tmpAppend_data, inputComp_data, inputComp_data] at hdata
  simp only [List.cons.injEq, true_and] at hdata
  obtain ⟨hs, -⟩ := append_underscore_eq (goFormatInt c1).data (goFormatInt c2).data
    f.data f.data (goFormatInt_no_underscore c1) (goFormatInt_no_underscore c2) hdata
  exact goFormatInt_inj (strExt hs)

/-! ### Claims -/

/-- **C1, counterexample.**  The claim says that once a temp file has been
created it is deleted on every exit path, in particular when the transcode
step fails after ffmpeg has created the output file.  In the code the
`defer os.Remove(outputPath)` is only registered *after* a successful
`makeCircularVideo`, so on a failing transcode that wrote the output file
the trace contains its creation but no removal. -/
theorem c1_cleanup_counterexample :
    Event.fileCreate (outputPathOf (normalizeFileName "a.mp4"))
        ∈ WebhookB.handleVideo ⟨1, some ⟨"f", "a.mp4"⟩, none⟩
            ⟨true, true, 200, true, true, false, .exited false true, true, none⟩
    ∧ Event.fileRemove (outputPathOf (normalizeFileName "a.mp4"))
        ∉ WebhookB.handleVideo ⟨1, some ⟨"f", "a.mp4"⟩, none⟩
            ⟨true, true, 200, true, true, false, .exited false true, true, none⟩ := by
  decide

/-- **C2, counterexample.**  Two requests from chats `1` and `2` with the
same normalized file name `a.mp4` do *not* get pairwise distinct temp
paths: the output path contains only the file name, so both requests
compute the same output path. -/
theorem c2_temp_path_counterexample :
    ¬((tempPathsOf 1 (normalizeFileName "a.mp4")).1
          ≠ (tempPathsOf 2 (normalizeFileName "a.mp4")).1
      ∧ (tempPathsOf 1 (normalizeFileName "a.mp4")).2
          ≠ (tempPathsOf 2 (normalizeFileName "a.mp4")).2) := by
  decide

/-- **C3, counterexample.**  In the context polling variant (tgbotapi with
cancellation context) an upload failure whose error string is exactly
`voiceMsgRestrictionErr` still produces the generic "failed to send" text:
that variant has no special case. -/
theorem c3_upload_error_counterexample :
    Event.msgSend 1 "Failed to send the processed video. Please try again."
        ∈ PollingCtx.handleVideo ⟨1, some ⟨"f", "a.mp4"⟩, none⟩
            ⟨true, true, 200, true, true, false, .exited true true, true,
              some voiceMsgRestrictionErr⟩
    ∧ Event.msgSend 1 "It seems that I don't have permission to send video notes. Please check if you allow sending voice messages in the settings."
        ∉ PollingCtx.handleVideo ⟨1, some ⟨"f", "a.mp4"⟩, none⟩
            ⟨true, true, 200, true, true, false, .exited true true, true,
              some voiceMsgRestrictionErr⟩ := by
  decide

/-- **C4, counterexample.**  The simple polling adapter (main.go) skips a
message with neither video nor document silently: no instructional reply
is sent at all. -/
theorem c4_instructional_reply_counterexample :
    Simple.dispatch (some ⟨7, none, none⟩)
        ⟨true, true, 200, true, true, false, .exited true true, true, none⟩ = []
    ∧ Event.msgSend 7 "Please send a video file to make it circular."
        ∉ Simple.dispatch (some ⟨7, none, none⟩)
            ⟨true, true, 200, true, true, false, .exited true true, true, none⟩ := by
  decide

/-- **C4, amended.**  In the variants that branch on video-or-document
(both go-telegram/bot webhook variants and the context polling variant —
all share `dispatchDefault`), a message with neither attachment gets
exactly the one instructional reply, no file is created and ffmpeg does
not run; the simple polling adapter of main.go instead does nothing for
such a message (and also ignores document messages). -/
theorem c4_instructional_reply (handler : Message → Env → List Event)
    (c : Int) (env : Env) :
    dispatchDefault handler (some ⟨c, none, none⟩) env
        = [.msgSend c "Please send a video file to make it circular."]
    ∧ (∀ p, Event.fileCreate p ∉ dispatchDefault handler (some ⟨c, none, none⟩) env)
    ∧ (∀ b exe args, Event.ffmpegRun b exe args
        ∉ dispatchDefault handler (some ⟨c, none, none⟩) env)
    ∧ Simple.dispatch (some ⟨c, none, none⟩) env = [] := by
  refine ⟨rfl, ?_, ?_, rfl⟩ <;> simp [dispatchDefault]

/-- **C6.**  The transcoder invocation is the fixed deterministic command
line `ffmpeg -i <input> -vf "crop=min(iw\,ih):min(iw\,ih),scale=640:640,format=yuv420p" -c:a copy -y <output>`;
the `Sprintf`-built filter of the context variants coincides with the
literal of main.go, and a started process is invoked with exactly these
arguments. -/
theorem c6_ffmpeg_invocation (i o : String) :
    ffmpegArgs i o
        = ["-i", i, "-vf", "crop=min(iw\\,ih):min(iw\\,ih),scale=640:640,format=yuv420p",
           "-c:a", "copy", "-y", o]
    ∧ ffmpegArgsSimple i o = ffmpegArgs i o
    ∧ (makeCircularVideoCtx ⟨true, true, 200, true, true, false, .exited true true, true, none⟩ i o).1
        = [.ffmpegRun true "ffmpeg" (ffmpegArgs i o), .fileCreate o]
    ∧ (makeCircularVideoSimple ⟨true, true, 200, true, true, false, .exited true true, true, none⟩ i o).1
        = [.ffmpegRun false "ffmpeg" (ffmpegArgsSimple i o), .fileCreate o] := by
  refine ⟨rfl, rfl, rfl, rfl⟩

/-- **C9.**  In the webhook variant of part_000, `fileReader` is total: when
opening the transcoded output fails, the pipeline neither aborts nor sends
an error reply for that step — the video note is submitted anyway with the
empty reader as payload. -/
theorem c9_open_failure_tolerated (c : Int) (fid n : String) :
    Event.videoNoteSend c true
        ∈ WebhookA.handleVideo ⟨c, some ⟨fid, n⟩, none⟩
            ⟨true, true, 200, true, true, false, .exited true true, false, none⟩
    ∧ "Failed to open the processed video. Please try again."
        ∉ sentTexts (WebhookA.handleVideo ⟨c, some ⟨fid, n⟩, none⟩
            ⟨true, true, 200, true, true, false, .exited true true, false, none⟩) := by
  constructor
  · simp [WebhookA.handleVideo, resolveAttachment, downloadFile, makeCircularVideoCtx,
      WebhookA.fileReaderGivesData]
  · simp only [WebhookA.handleVideo, resolveAttachment, downloadFile, makeCircularVideoCtx,
      WebhookA.fileReaderGivesData]
    simp [sentTexts]

/-- **C10.**  The attachment display name is embedded verbatim into the
temp paths: a name with enough parent-directory components (which survives
normalization unchanged) yields input and output temp paths that, after
`filepath.Join` with the temp directory, do not lie under the temp
directory. -/
theorem c10_path_escape :
    ∃ name : String, normalizeFileName name = name
      ∧ underDir tempDir (tempPathsOf 0 name).1 = false
      ∧ underDir tempDir (tempPathsOf 0 name).2 = false := by
  refine ⟨"../../../evil.mp4", by decide, by decide, by decide⟩

/-- **C2, amended.**  For two requests from different chat identifiers with
the same normalized file name (one containing no path separator), the input
temp paths are distinct — the chat id is part of the input name — but the
output temp paths are *identical*, since the output name does not include
the chat id; the requests can therefore collide on the output file. -/
theorem c2_temp_path_separation (c1 c2 : Int) (f : String)
    (hc : c1 ≠ c2) (hf : ∀ ch ∈ f.data, ch ≠ '/') :
    (tempPathsOf c1 f).1 ≠ (tempPathsOf c2 f).1
    ∧ (tempPathsOf c1 f).2 = (tempPathsOf c2 f).2 :=
  ⟨inputPathOf_inj c1 c2 f hc hf, rfl⟩

/-- **C2, witness** for `c2_temp_path_separation` at chats 1 and 2 with
file name `a.mp4`. -/
theorem c2_temp_path_separation_witness :
    (tempPathsOf 1 "a.mp4").1 ≠ (tempPathsOf 2 "a.mp4").1
    ∧ (tempPathsOf 1 "a.mp4").2 = (tempPathsOf 2 "a.mp4").2 :=
  c2_temp_path_separation 1 2 "a.mp4" (by decide) (by decide)

/-- **C8, counterexample.**  main.go builds the transcoder command with
`exec.Command`, not `exec.CommandContext`: even with the cancellation
signal fired, its ffmpeg invocation runs without the context (`withCtx =
false`) and the request completes normally (the video note is sent). -/
theorem c8_cancellation_counterexample :
    Event.ffmpegRun false "ffmpeg"
        (ffmpegArgsSimple (goJoin tempDir "input.mp4") (goJoin tempDir "output.mp4"))
        ∈ Simple.handleVideo ⟨1, some ⟨"f", "x"⟩, none⟩
            ⟨true, true, 200, true, true, true, .exited true true, true, none⟩
    ∧ Event.videoNoteSend 1 false
        ∈ Simple.handleVideo ⟨1, some ⟨"f", "x"⟩, none⟩
            ⟨true, true, 200, true, true, true, .exited true true, true, none⟩ := by
  decide

/-- **C8, amended.**  In the three context variants the cancellation signal
is threaded into the ffmpeg invocation (`exec.CommandContext`): every run
event carries the context, and once the signal has fired the invocation
returns a failure.  The simple polling variant of main.go does not thread
the signal (see the counterexample). -/
theorem c8_cancellation_threading (env : Env) (i o : String)
    (h : env.cancelFired = true) :
    (makeCircularVideoCtx env i o).2 = false
    ∧ (∀ b exe args, Event.ffmpegRun b exe args ∈ (makeCircularVideoCtx env i o).1
        → b = true) := by
  obtain ⟨gf, ho, hs, co, cp, cf, tc, op, sn⟩ := env
  simp only at h
  subst h
  cases tc with
  | pipeError => simp [makeCircularVideoCtx]
  | startError => simp [makeCircularVideoCtx]
  | exited exitOk wrote =>
    constructor
    · simp [makeCircularVideoCtx]
    · intro b exe args hmem
      cases wrote <;> simp [makeCircularVideoCtx] at hmem <;> exact hmem.1

/-- **C8, witness** for `c8_cancellation_threading` with the cancellation
fired during an otherwise successful run. -/
theorem c8_cancellation_threading_witness :
    (makeCircularVideoCtx ⟨true, true, 200, true, true, true, .exited true true, true, none⟩
        "/tmp/i.mp4" "/tmp/o.mp4").2 = false
    ∧ (∀ b exe args, Event.ffmpegRun b exe args
        ∈ (makeCircularVideoCtx ⟨true, true, 200, true, true, true, .exited true true, true, none⟩
            "/tmp/i.mp4" "/tmp/o.mp4").1 → b = true) :=
  c8_cancellation_threading ⟨true, true, 200, true, true, true, .exited true true, true, none⟩
    "/tmp/i.mp4" "/tmp/o.mp4" rfl

/-- **C1, amended.**  Deletion is unconditional only once the step that
fills a temp file has *succeeded*: after a successful download the input
temp file is removed on every exit path, and after a successful transcode
the output temp file is removed on every exit path.  A file created by a
failing step (output written by a failed ffmpeg run, or a partial download)
is not deleted — the `defer os.Remove` is registered only after the
corresponding success check. -/
theorem c1_cleanup_after_success (c : Int) (fid n : String) (env : Env)
    (hg : env.getFileOk = true)
    (hdl : (downloadFile env (inputPathOf c (normalizeFileName n))).2 = true) :
    Event.fileRemove (inputPathOf c (normalizeFileName n))
        ∈ WebhookB.handleVideo ⟨c, some ⟨fid, n⟩, none⟩ env
    ∧ ((makeCircularVideoCtx env (inputPathOf c (normalizeFileName n))
          (outputPathOf (normalizeFileName n))).2 = true →
        Event.fileRemove (outputPathOf (normalizeFileName n))
          ∈ WebhookB.handleVideo ⟨c, some ⟨fid, n⟩, none⟩ env) := by
  obtain ⟨gf, ho, hs, co, cp, cf, tc, op, sn⟩ := env
  simp only at hg
  subst hg
  cases ho <;> cases co <;> cases cp <;> simp [downloadFile] at hdl
  cases tc with
  | pipeError =>
    constructor
    · simp [WebhookB.handleVideo, resolveAttachment, downloadFile, makeCircularVideoCtx]
    · intro hco
      simp [makeCircularVideoCtx] at hco
  | startError =>
    constructor
    · simp [WebhookB.handleVideo, resolveAttachment, downloadFile, makeCircularVideoCtx]
    · intro hco
      simp [makeCircularVideoCtx] at hco
  | exited exitOk wrote =>
    cases exitOk <;> cases cf <;> cases wrote <;> cases op <;>
      rcases sn with _ | e <;>
      constructor <;>
      simp [WebhookB.handleVideo, resolveAttachment, downloadFile, makeCircularVideoCtx]

/-- **C1, witness** for `c1_cleanup_after_success`: successful download and
transcode, failing upload — both temp files are still removed. -/
theorem c1_cleanup_after_success_witness :
    Event.fileRemove (inputPathOf 1 (normalizeFileName "a.mp4"))
        ∈ WebhookB.handleVideo ⟨1, some ⟨"f", "a.mp4"⟩, none⟩
            ⟨true, true, 200, true, true, false, .exited true true, true, some "boom"⟩
    ∧ ((makeCircularVideoCtx ⟨true, true, 200, true, true, false, .exited true true, true, some "boom"⟩
          (inputPathOf 1 (normalizeFileName "a.mp4"))
          (outputPathOf (normalizeFileName "a.mp4"))).2 = true →
        Event.fileRemove (outputPathOf (normalizeFileName "a.mp4"))
          ∈ WebhookB.handleVideo ⟨1, some ⟨"f", "a.mp4"⟩, none⟩
              ⟨true, true, 200, true, true, false, .exited true true, true, some "boom"⟩) :=
  c1_cleanup_after_success 1 "f" "a.mp4"
    ⟨true, true, 200, true, true, false, .exited true true, true, some "boom"⟩ rfl rfl

/-- **C5, counterexample.**  A download whose transport succeeds with a
non-success HTTP status (404) is *not* treated as a failure: the body is
saved, no "failed to download" text is sent, and the transcoder is
invoked. -/
theorem c5_download_failure_counterexample :
    Event.httpResponse 404
        ∈ WebhookB.handleVideo ⟨1, some ⟨"f", "a.mp4"⟩, none⟩
            ⟨true, true, 404, true, true, false, .exited true true, true, none⟩
    ∧ Event.ffmpegRun true "ffmpeg"
          (ffmpegArgs (inputPathOf 1 (normalizeFileName "a.mp4"))
            (outputPathOf (normalizeFileName "a.mp4")))
        ∈ WebhookB.handleVideo ⟨1, some ⟨"f", "a.mp4"⟩, none⟩
            ⟨true, true, 404, true, true, false, .exited true true, true, none⟩
    ∧ "Failed to download the video. Please try again."
        ∉ sentTexts (WebhookB.handleVideo ⟨1, some ⟨"f", "a.mp4"⟩, none⟩
            ⟨true, true, 404, true, true, false, .exited true true, true, none⟩) := by
  decide

/-- **C5, amended.**  When `downloadFile` itself returns an error (transport
error, file-creation error, or body-copy error), the pipeline sends exactly
the "failed to download" text, never runs ffmpeg, and the only file it may
have created is the input temp file.  A non-success HTTP status is *not* a
download failure: the status code is never inspected (see the
counterexample). -/
theorem c5_download_failure_behavior (c : Int) (fid n : String) (env : Env)
    (hg : env.getFileOk = true)
    (hdl : (downloadFile env (inputPathOf c (normalizeFileName n))).2 = false) :
    sentTexts (WebhookB.handleVideo ⟨c, some ⟨fid, n⟩, none⟩ env)
        = ["Failed to download the video. Please try again."]
    ∧ (∀ b exe args, Event.ffmpegRun b exe args
        ∉ WebhookB.handleVideo ⟨c, some ⟨fid, n⟩, none⟩ env)
    ∧ (∀ p, Event.fileCreate p ∈ WebhookB.handleVideo ⟨c, some ⟨fid, n⟩, none⟩ env →
        p = inputPathOf c (normalizeFileName n)) := by
  obtain ⟨gf, ho, hs, co, cp, cf, tc, op, sn⟩ := env
  simp only at hg
  subst hg
  cases ho <;> cases co <;> cases cp <;> simp [downloadFile] at hdl <;>
    refine ⟨?_, ?_, ?_⟩ <;>
    simp [WebhookB.handleVideo, resolveAttachment, downloadFile, sentTexts]

/-- **C5, witness** for `c5_download_failure_behavior` with a transport
error. -/
theorem c5_download_failure_behavior_witness :
    sentTexts (WebhookB.handleVideo ⟨1, some ⟨"f", "a.mp4"⟩, none⟩
        ⟨true, false, 200, true, true, false, .exited true true, true, none⟩)
        = ["Failed to download the video. Please try again."]
    ∧ (∀ b exe args, Event.ffmpegRun b exe args
        ∉ WebhookB.handleVideo ⟨1, some ⟨"f", "a.mp4"⟩, none⟩
            ⟨true, false, 200, true, true, false, .exited true true, true, none⟩)
    ∧ (∀ p, Event.fileCreate p ∈ WebhookB.handleVideo ⟨1, some ⟨"f", "a.mp4"⟩, none⟩
        ⟨true, false, 200, true, true, false, .exited true true, true, none⟩ →
        p = inputPathOf 1 (normalizeFileName "a.mp4")) :=
  c5_download_failure_behavior 1 "f" "a.mp4"
    ⟨true, false, 200, true, true, false, .exited true true, true, none⟩ rfl rfl

/-- **C3, amended.**  The VOICE_MESSAGES_FORBIDDEN special case exists only
in the go-telegram/bot variants (both webhook variants): there, an upload
failure with exactly that error string produces the explanatory permission
text and any other upload error the generic "failed to send" text.  The
tgbotapi context polling variant sends the generic text for *every* upload
error, the restriction string included (see the counterexample), and
main.go sends no failure text at all. -/
theorem c3_upload_error_texts (c : Int) (fid n e : String) :
    (e = voiceMsgRestrictionErr →
      "It seems that I don't have permission to send video notes. Please check if you allow sending voice messages in the settings."
          ∈ sentTexts (WebhookB.handleVideo ⟨c, some ⟨fid, n⟩, none⟩
              ⟨true, true, 200, true, true, false, .exited true true, true, some e⟩)
      ∧ "Failed to send the processed video. Please try again."
          ∉ sentTexts (WebhookB.handleVideo ⟨c, some ⟨fid, n⟩, none⟩
              ⟨true, true, 200, true, true, false, .exited true true, true, some e⟩)
      ∧ "It seems that I don't have permission to send video notes. Please check if you allow sending voice messages in the settings."
          ∈ sentTexts (WebhookA.handleVideo ⟨c, some ⟨fid, n⟩, none⟩
              ⟨true, true, 200, true, true, false, .exited true true, true, some e⟩)
      ∧ "Failed to send the processed video. Please try again."
          ∉ sentTexts (WebhookA.handleVideo ⟨c, some ⟨fid, n⟩, none⟩
              ⟨true, true, 200, true, true, false, .exited true true, true, some e⟩))
    ∧ (e ≠ voiceMsgRestrictionErr →
      "Failed to send the processed video. Please try again."
          ∈ sentTexts (WebhookB.handleVideo ⟨c, some ⟨fid, n⟩, none⟩
              ⟨true, true, 200, true, true, false, .exited true true, true, some e⟩)
      ∧ "It seems that I don't have permission to send video notes. Please check if you allow sending voice messages in the settings."
          ∉ sentTexts (WebhookB.handleVideo ⟨c, some ⟨fid, n⟩, none⟩
              ⟨true, true, 200, true, true, false, .exited true true, true, some e⟩)
      ∧ "Failed to send the processed video. Please try again."
          ∈ sentTexts (WebhookA.handleVideo ⟨c, some ⟨fid, n⟩, none⟩
              ⟨true, true, 200, true, true, false, .exited true true, true, some e⟩)
      ∧ "It seems that I don't have permission to send video notes. Please check if you allow sending voice messages in the settings."
          ∉ sentTexts (WebhookA.handleVideo ⟨c, some ⟨fid, n⟩, none⟩
              ⟨true, true, 200, true, true, false, .exited true true, true, some e⟩))
    ∧ "Failed to send the processed video. Please try again."
        ∈ sentTexts (PollingCtx.handleVideo ⟨c, some ⟨fid, n⟩, none⟩
            ⟨true, true, 200, true, true, false, .exited true true, true, some e⟩)
    ∧ "It seems that I don't have permission to send video notes. Please check if you allow sending voice messages in the settings."
        ∉ sentTexts (PollingCtx.handleVideo ⟨c, some ⟨fid, n⟩, none⟩
            ⟨true, true, 200, true, true, false, .exited true true, true, some e⟩) := by
  have hP : sentTexts (PollingCtx.handleVideo ⟨c, some ⟨fid, n⟩, none⟩
      ⟨true, true, 200, true, true, false, .exited true true, true, some e⟩)
      = ["Video downloaded. Processing...", "Video processed. Sending...",
         "Failed to send the processed video. Please try again."] := by
    simp [PollingCtx.handleVideo, resolveAttachment, downloadFile, makeCircularVideoCtx,
      sentTexts]
  by_cases h : e = voiceMsgRestrictionErr
  · have hB : sentTexts (WebhookB.handleVideo ⟨c, some ⟨fid, n⟩, none⟩
        ⟨true, true, 200, true, true, false, .exited true true, true, some e⟩)
        = ["Video downloaded. Processing...", "Video processed. Sending...",
           "It seems that I don't have permission to send video notes. Please check if you allow sending voice messages in the settings."] := by
      simp [WebhookB.handleVideo, resolveAttachment, downloadFile, makeCircularVideoCtx,
        sentTexts, h]
    have hA : sentTexts (WebhookA.handleVideo ⟨c, some ⟨fid, n⟩, none⟩
        ⟨true, true, 200, true, true, false, .exited true true, true, some e⟩)
        = ["Video downloaded. Processing...", "Video processed. Sending...",
           "It seems that I don't have permission to send video notes. Please check if you allow sending voice messages in the settings."] := by
      simp [WebhookA.handleVideo, resolveAttachment, downloadFile, makeCircularVideoCtx,
        WebhookA.fileReaderGivesData, sentTexts, h]
    refine ⟨fun _ => ?_, fun hne => absurd h hne, ?_, ?_⟩
    · rw [hB, hA]
      refine ⟨by decide, by decide, by decide, by decide⟩
    · rw [hP]; decide
    · rw [hP]; decide
  · have hB : sentTexts (WebhookB.handleVideo ⟨c, some ⟨fid, n⟩, none⟩
        ⟨true, true, 200, true, true, false, .exited true true, true, some e⟩)
        = ["Video downloaded. Processing...", "Video processed. Sending...",
           "Failed to send the processed video. Please try again."] := by
      simp [WebhookB.handleVideo, resolveAttachment, downloadFile, makeCircularVideoCtx,
        sentTexts, h]
    have hA : sentTexts (WebhookA.handleVideo ⟨c, some ⟨fid, n⟩, none⟩
        ⟨true, true, 200, true, true, false, .exited true true, true, some e⟩)
        = ["Video downloaded. Processing...", "Video processed. Sending...",
           "Failed to send the processed video. Please try again."] := by
      simp [WebhookA.handleVideo, resolveAttachment, downloadFile, makeCircularVideoCtx,
        WebhookA.fileReaderGivesData, sentTexts, h]
    refine ⟨fun he => absurd he h, fun _ => ?_, ?_, ?_⟩
    · rw [hB, hA]
      refine ⟨by decide, by decide, by decide, by decide⟩
    · rw [hP]; decide
    · rw [hP]; decide

/-- **C3, witness** for `c3_upload_error_texts` with a generic upload
error. -/
theorem c3_upload_error_texts_witness :
    "Failed to send the processed video. Please try again."
        ∈ sentTexts (WebhookB.handleVideo ⟨5, some ⟨"f", "v.mp4"⟩, none⟩
            ⟨true, true, 200, true, true, false, .exited true true, true, some "boom"⟩)
    ∧ "It seems that I don't have permission to send video notes. Please check if you allow sending voice messages in the settings."
        ∉ sentTexts (WebhookB.handleVideo ⟨5, some ⟨"f", "v.mp4"⟩, none⟩
            ⟨true, true, 200, true, true, false, .exited true true, true, some "boom"⟩) := by
  have h := (c3_upload_error_texts 5 "f" "v.mp4" "boom").2.1 (by decide)
  exact ⟨h.1, h.2.1⟩

/-- **C7.**  Name normalization: the empty display name becomes `video.mp4`,
a non-empty name with empty `filepath.Ext` gets `.mp4` appended, any other
name is kept unchanged; and the single normalized name is the one used in
both the downloaded (input) and transcoded (output) temp paths of the
request — both created files of a successful run carry it. -/
theorem c7_filename_normalization (n : String) (c : Int) :
    normalizeFileName "" = "video.mp4"
    ∧ (n ≠ "" → goExt n = "" → normalizeFileName n = n ++ ".mp4")
    ∧ (goExt n ≠ "" → normalizeFileName n = n)
    ∧ Event.fileCreate (inputPathOf c (normalizeFileName n))
        ∈ WebhookB.handleVideo ⟨c, some ⟨"fid", n⟩, none⟩
            ⟨true, true, 200, true, true, false, .exited true true, true, none⟩
    ∧ Event.fileCreate (outputPathOf (normalizeFileName n))
        ∈ WebhookB.handleVideo ⟨c, some ⟨"fid", n⟩, none⟩
            ⟨true, true, 200, true, true, false, .exited true true, true, none⟩ := by
  refine ⟨rfl, ?_, ?_, ?_, ?_⟩
  · intro h1 h2
    simp [normalizeFileName, h1, h2]
  · intro h
    by_cases h0 : n = ""
    · subst h0
      exact absurd rfl h
    · simp [normalizeFileName, h0, h]
  · simp [WebhookB.handleVideo, resolveAttachment, downloadFile, makeCircularVideoCtx]
  · simp [WebhookB.handleVideo, resolveAttachment, downloadFile, makeCircularVideoCtx]

/-- **C7, witness** for `c7_filename_normalization` at the extensionless
name `clip`. -/
theorem c7_filename_normalization_witness :
    normalizeFileName "clip" = "clip" ++ ".mp4"
    ∧ Event.fileCreate (inputPathOf 3 (normalizeFileName "clip"))
        ∈ WebhookB.handleVideo ⟨3, some ⟨"fid", "clip"⟩, none⟩
            ⟨true, true, 200, true, true, false, .exited true true, true, none⟩
    ∧ Event.fileCreate (outputPathOf (normalizeFileName "clip"))
        ∈ WebhookB.handleVideo ⟨3, some ⟨"fid", "clip"⟩, none⟩
            ⟨true, true, 200, true, true, false, .exited true true, true, none⟩ :=
  ⟨(c7_filename_normalization "clip" 3).2.1 (by decide) (by decide),
   (c7_filename_normalization "clip" 3).2.2.2.1,
   (c7_filename_normalization "clip" 3).2.2.2.2⟩
